import Mathlib

/-!
Verification development for the Patch AI reminder subsystem and intent
router (source: src/Patch AI/src/brain.py).

The embedding models Python strings as `List Char`, timestamps as `Int`
epoch seconds (the program uses process-local wall-clock time, so the
embedding treats the time line as linear), and fallible Python code
(statements that can raise) as `Except`-valued functions.  Functions keep
the source's names, camel-cased with a `py` prefix where needed.

Python's `datetime.strftime("%Y-%m-%d %H:%M")` and the matching
`strptime` are standard-library collaborators; the embedding models that
pair at its interface: formatting is an injective encoding of the
minute-truncated timestamp, and parsing is its inverse.  Accordingly a
formatted time is represented by its minute-truncated timestamp
(`minuteTrunc`), which is exactly the information the source ever
extracts back out of the string.
-/

set_option autoImplicit false

/-- Characters of a string literal, the representation used for all
Python strings in this development. -/
def cs (s : String) : List Char := s.toList

/-- Python `str.lower()` (the source only ever lowers ASCII input). -/
def lowerL (s : List Char) : List Char := s.map Char.toLower

/-- Python whitespace as used by `str.strip()` and the regex class `\s`. -/
def isWS (c : Char) : Bool :=
  c == ' ' || c == '\t' || c == '\n' || c == '\r' || c == '\x0b' || c == '\x0c'

/-- Decide whether `needle` is a prefix of `hay` (exact characters). -/
def startsW : List Char → List Char → Bool
  | [], _ => true
  | _ :: _, [] => false
  | a :: as, b :: bs => a == b && startsW as bs

/-- Case-insensitive prefix test: the needle is given lowercase and the
haystack is lowered character by character (regex `IGNORECASE`). -/
def startsWCI : List Char → List Char → Bool
  | [], _ => true
  | _ :: _, [] => false
  | a :: as, b :: bs => a == b.toLower && startsWCI as bs

/-- Python's substring operator `needle in hay`. -/
def containsSub (n : List Char) : List Char → Bool
  | [] => startsW n []
  | c :: t => startsW n (c :: t) || containsSub n t

/-- Python `str.strip()`: drop leading and trailing whitespace. -/
def pyStrip (s : List Char) : List Char :=
  ((s.dropWhile isWS).reverse.dropWhile isWS).reverse

/-- Fueled worker for `replaceAll`; the fuel is an upper bound on the
string length, so with fuel `s.length + 1` it never runs out. -/
def raGo : Nat → List Char → List Char → List Char → List Char
  | 0, _, _, s => s
  | fuel + 1, old, new, s =>
    match s with
    | [] => []
    | c :: t =>
      if startsW old (c :: t) then new ++ raGo fuel old new (t.drop (old.length - 1))
      else c :: raGo fuel old new t

/-- Python `str.replace(old, new)`: replace every non-overlapping
occurrence, scanning left to right.  The source never calls it with an
empty `old`, for which the function returns the string unchanged. -/
def replaceAll (old new s : List Char) : List Char :=
  if old.isEmpty then s else raGo (s.length + 1) old new s

/-- The suffix of `s` after the first occurrence of `t`, if any. -/
def afterFirstSub (t : List Char) : List Char → Option (List Char)
  | [] => if startsW t [] then some [] else none
  | c :: r =>
    if startsW t (c :: r) then some (r.drop (t.length - 1))
    else afterFirstSub t r

/-- Fueled worker for `afterLastSub`. -/
def afterLastGo : Nat → List Char → List Char → List Char
  | 0, _, s => s
  | fuel + 1, t, s =>
    match afterFirstSub t s with
    | none => s
    | some r => afterLastGo fuel t r

/-- Python `s.split(t)[-1]`: the part of `s` after the last occurrence of
`t` (the whole string when `t` does not occur). -/
def afterLastSub (t s : List Char) : List Char :=
  if t.isEmpty then s else afterLastGo (s.length + 1) t s

/-- The character for the decimal digit `n`. -/
def digitChar (n : Nat) : Char := Char.ofNat (48 + n)

/-- Fueled worker for `decDigits`. -/
def decDigitsGo : Nat → Nat → List Char
  | 0, _ => []
  | fuel + 1, n =>
    if n < 10 then [digitChar n]
    else decDigitsGo fuel (n / 10) ++ [digitChar (n % 10)]

/-- Decimal digits of a natural number. -/
def decDigits (n : Nat) : List Char := decDigitsGo (n + 1) n

/-- Python f-string `rem_` followed by the ordinal formatted `:03d`
(zero-padded to at least three digits), as in `add_reminder`. -/
def remId (n : Nat) : List Char :=
  cs "rem_" ++ List.replicate (3 - (decDigits n).length) '0' ++ decDigits n

/-- ASCII digit test (regex `\d` on the source's ASCII input). -/
def isDig (c : Char) : Bool := 48 ≤ c.toNat && c.toNat ≤ 57

/-- Numeric value of a digit string, Python `int(...)`. -/
def digitsVal (ds : List Char) : Nat :=
  ds.foldl (fun a c => a * 10 + (c.toNat - 48)) 0

/-- Truncation of an epoch-seconds timestamp to whole minutes: the
information content of `strftime("%Y-%m-%d %H:%M")`. -/
def minuteTrunc (t : Int) : Int := t / 60 * 60

-- ==========================================
-- Regex matchers of parse_time_with_regex / extract_task_with_regex
-- ==========================================

/-- Match of `in (\d+)\s*(minute|min|hour|hr)s?` anchored at the head of
the list; returns the amount and whether the unit is an hour unit
(mirroring `'hour' in unit or unit == 'hr'`).  Alternatives are tried in
the pattern's order; the greedy `\d+` and `\s*` need no backtracking
because no unit begins with a digit or a space. -/
def matchRelAt (s : List Char) : Option (Nat × Bool) :=
  match s with
  | 'i' :: 'n' :: ' ' :: rest =>
    let ds := rest.takeWhile isDig
    if ds.isEmpty then none
    else
      let r2 := (rest.dropWhile isDig).dropWhile isWS
      if startsW (cs "minute") r2 then some (digitsVal ds, false)
      else if startsW (cs "min") r2 then some (digitsVal ds, false)
      else if startsW (cs "hour") r2 then some (digitsVal ds, true)
      else if startsW (cs "hr") r2 then some (digitsVal ds, true)
      else none
  | _ => none

/-- `re.search` scan for `matchRelAt`: leftmost match wins. -/
def searchRel : List Char → Option (Nat × Bool)
  | [] => none
  | c :: t =>
    match matchRelAt (c :: t) with
    | some v => some v
    | none => searchRel t

/-- Shared tail of the clock patterns: starting from a first digit `d1`,
consume `\d{1,2}` greedily, then the optional `(?::(\d{2}))?`, then
`\s*`, then the optional `(am|pm)?` (period: `some true` is pm,
`some false` is am).  Every component after the hour digits can match
the empty string, so the greedy choices never need backtracking. -/
def clockFrom (d1 : Char) (rest1 : List Char) : Nat × Nat × Option Bool :=
  let hm : List Char × List Char :=
    match rest1 with
    | d2 :: r2 => if isDig d2 then ([d1, d2], r2) else ([d1], rest1)
    | [] => ([d1], [])
  let mm : Option Nat × List Char :=
    match hm.2 with
    | ':' :: e1 :: e2 :: r3 =>
      if isDig e1 && isDig e2 then (some (digitsVal [e1, e2]), r3) else (none, hm.2)
    | _ => (none, hm.2)
  let rest4 := mm.2.dropWhile isWS
  let period : Option Bool :=
    if startsW (cs "am") rest4 then some false
    else if startsW (cs "pm") rest4 then some true
    else none
  (digitsVal hm.1, (mm.1.getD 0), period)

/-- Match of `at (\d{1,2})(?::(\d{2}))?\s*(am|pm)?` anchored at the head. -/
def matchAtTimeAt (s : List Char) : Option (Nat × Nat × Option Bool) :=
  match s with
  | 'a' :: 't' :: ' ' :: d1 :: rest1 =>
    if isDig d1 then some (clockFrom d1 rest1) else none
  | _ => none

/-- `re.search` scan for `matchAtTimeAt`. -/
def searchAtTime : List Char → Option (Nat × Nat × Option Bool)
  | [] => none
  | c :: t =>
    match matchAtTimeAt (c :: t) with
    | some v => some v
    | none => searchAtTime t

/-- Match of `(\d{1,2})(?::(\d{2}))?\s*(am|pm)?` anchored at the head
(the pattern used inside the `tomorrow` branch). -/
def matchClockAt (s : List Char) : Option (Nat × Nat × Option Bool) :=
  match s with
  | d1 :: rest1 => if isDig d1 then some (clockFrom d1 rest1) else none
  | [] => none

/-- `re.search` scan for `matchClockAt`. -/
def searchClock : List Char → Option (Nat × Nat × Option Bool)
  | [] => none
  | c :: t =>
    match matchClockAt (c :: t) with
    | some v => some v
    | none => searchClock t

/-- Regex word character (`\w`), ASCII. -/
def isWordC (c : Char) : Bool :=
  isDig c || (97 ≤ c.toNat && c.toNat ≤ 122) || (65 ≤ c.toNat && c.toNat ≤ 90) || c == '_'

/-- The keyword alternation of the task-stripping patterns, in the
pattern's order. -/
def taskKeywords : List (List Char) :=
  [cs "at", cs "in", cs "on", cs "for", cs "tomorrow", cs "today", cs "tonight"]

/-- Word boundary `\b` before a keyword: holds at string start or after a
non-word character (every keyword begins with a word character). -/
def boundaryBefore (prev : Option Char) : Bool :=
  match prev with
  | some p => !isWordC p
  | none => true

/-- Match of `\b(at|in|on|for|tomorrow|today|tonight)\s+\d+.*` anchored
at the current position, given the previous character. -/
def kwNumMatchAt (prev : Option Char) (s : List Char) : Bool :=
  boundaryBefore prev &&
    taskKeywords.any fun k =>
      startsWCI k s &&
        (let r := s.drop k.length
         let r2 := r.dropWhile isWS
         !(r.takeWhile isWS).isEmpty &&
           (match r2 with
            | c :: _ => isDig c
            | [] => false))

/-- Match of `\b(at|in|on|for|tomorrow|today|tonight)\b.*` anchored at
the current position. -/
def kwMatchAt (prev : Option Char) (s : List Char) : Bool :=
  boundaryBefore prev &&
    taskKeywords.any fun k =>
      startsWCI k s &&
        (match s.drop k.length with
         | [] => true
         | c :: _ => !isWordC c)

/-- `re.sub(r'\b(at|...)\s+\d+.*', '', s)`: the match (which runs to the
end of the line) is deleted; with no match the string is unchanged. -/
def sub4aGo (prev : Option Char) : List Char → List Char
  | [] => []
  | c :: t => if kwNumMatchAt prev (c :: t) then [] else c :: sub4aGo (some c) t

/-- Entry point for the first task-stripping substitution. -/
def sub4a (s : List Char) : List Char := sub4aGo none s

/-- `re.sub(r'\b(at|...)\b.*', '', s)`. -/
def sub4bGo (prev : Option Char) : List Char → List Char
  | [] => []
  | c :: t => if kwMatchAt prev (c :: t) then [] else c :: sub4bGo (some c) t

/-- Entry point for the second task-stripping substitution. -/
def sub4b (s : List Char) : List Char := sub4bGo none s

/-- `re.sub(r'^to\s+', '', s)` with `IGNORECASE`. -/
def sub4c (s : List Char) : List Char :=
  match s with
  | c1 :: c2 :: rest =>
    if c1.toLower == 't' && c2.toLower == 'o' then
      if (rest.takeWhile isWS).isEmpty then s else rest.dropWhile isWS
    else s
  | _ => s

-- ==========================================
-- Data model (section 3 of the spec, as realised by brain.py)
-- ==========================================

/-- MAX_REMINDERS constant of brain.py. -/
def MAX_REMINDERS : Nat := 20

/-- ARCHIVE_RETENTION_DAYS constant of brain.py. -/
def ARCHIVE_RETENTION_DAYS : Nat := 14

/-- An active reminder as stored in the ledger's `active` list. -/
structure Reminder where
  id : List Char
  task : List Char
  time : Int
  recurring : Bool
  snoozedUntil : Option Int
  deriving DecidableEq

/-- An archive entry: `archive_reminder` adds `status` and `archived_at`
to the reminder's own fields.  `archivedAt` is the minute-truncated
timestamp written by `strftime("%Y-%m-%d %H:%M")`. -/
structure ArchiveEntry where
  id : List Char
  task : List Char
  time : Int
  recurring : Bool
  snoozedUntil : Option Int
  status : List Char
  archivedAt : Int
  deriving DecidableEq

/-- The reminder ledger document. -/
structure Ledger where
  active : List Reminder
  archive : List ArchiveEntry
  deriving DecidableEq

/-- `archive_reminder(data, reminder, status)`: snapshot the reminder's
current fields, tag them with the status and the formatted current time. -/
def mkArchiveEntry (r : Reminder) (status : List Char) (now : Int) : ArchiveEntry :=
  ⟨r.id, r.task, r.time, r.recurring, r.snoozedUntil, status, minuteTrunc now⟩

/-- The one exception the reminder pipeline can raise:
`datetime.replace` raises `ValueError` on an out-of-range hour or minute. -/
inductive PyExc where
  | valueErr
  deriving DecidableEq

/-- Result of `add_reminder` (the source encodes it as a `|`-separated
string; `readable` carries the minute-truncated fire time that the
source renders with `strftime("%Y-%m-%d %H:%M")`). -/
inductive AddResult where
  | limitReached (count : Nat)
  | success (id : List Char) (readable : Int)
  deriving DecidableEq

-- ==========================================
-- parse_time_with_regex / extract_task_with_regex
-- ==========================================

/-- The two period adjustments of `parse_time_with_regex`:
`if period == 'pm' and hour != 12: hour += 12` then
`if period == 'am' and hour == 12: hour = 0`. -/
def pmAdjust (h : Nat) (period : Option Bool) : Nat :=
  let h1 := if period == some true && h != 12 then h + 12 else h
  if period == some false && h == 12 then 0 else h1

/-- `parse_time_with_regex(user_input)`.  `now` is the current timestamp
and `dayStart` the timestamp of today's local midnight (Python derives
both from `datetime.now()`).  The pattern branches are tried in source
order; `datetime.replace(hour=..., minute=..., ...)` raises `ValueError`
when the matched hour exceeds 23 or the minute exceeds 59, modelled as
`Except.error`. -/
def pyParseTime (now dayStart : Int) (input : List Char) : Except PyExc Int :=
  let low := lowerL input
  match searchRel low with
  | some (n, isHour) => .ok (now + (if isHour then 3600 else 60) * (n : Int))
  | none =>
    match searchAtTime low with
    | some (h, m, period) =>
      let h2 := pmAdjust h period
      if h2 ≤ 23 ∧ m ≤ 59 then
        let target := dayStart + 3600 * (h2 : Int) + 60 * (m : Int)
        .ok (if target < now then target + 86400 else target)
      else .error .valueErr
    | none =>
      if containsSub (cs "tomorrow") low then
        match searchClock low with
        | some (h, m, period) =>
          let h2 := pmAdjust h period
          if h2 ≤ 23 ∧ m ≤ 59 then
            .ok (dayStart + 86400 + 3600 * (h2 : Int) + 60 * (m : Int))
          else .error .valueErr
        | none => .ok (now + 3600)
      else .ok (now + 3600)

/-- `extract_task_with_regex(user_input, trigger_used)`. -/
def extractTask (input trig : List Char) : List Char :=
  let t0 := pyStrip (replaceAll trig [] (lowerL input))
  let t1 := pyStrip (sub4a t0)
  let t2 := pyStrip (sub4b t1)
  let t3 := pyStrip (sub4c t2)
  let t4 := if t3.length < 5 then pyStrip (replaceAll trig [] input) else t3
  if t4.isEmpty then cs "reminder" else t4

-- ==========================================
-- Reminder scheduler operations
-- ==========================================

/-- `add_reminder(task, time_str, user_input, recurring)` acting on the
loaded ledger.  Returns the result, the resulting ledger, and whether
`save_reminders` was called.  The capacity check precedes time parsing,
so at capacity no exception can occur. -/
def pyAddReminder (L : Ledger) (task input : List Char) (recurring : Bool)
    (now dayStart : Int) : Except PyExc (AddResult × Ledger × Bool) :=
  if MAX_REMINDERS ≤ L.active.length then
    .ok (.limitReached L.active.length, L, false)
  else
    match pyParseTime now dayStart input with
    | .error e => .error e
    | .ok t =>
      let r : Reminder := ⟨remId (L.active.length + 1), task, t, recurring, none⟩
      .ok (.success r.id (minuteTrunc t), ⟨L.active ++ [r], L.archive⟩, true)

/-- `delete_reminder(task_keyword)`: keep the active reminders whose task
does not contain the keyword (case-insensitively); returns the ledger,
the removed count, and the (unconditional) save flag. -/
def pyDeleteReminder (L : Ledger) (kw : List Char) : Ledger × Nat × Bool :=
  let kept := L.active.filter fun r => !containsSub (lowerL kw) (lowerL r.task)
  (⟨kept, L.archive⟩, L.active.length - kept.length, true)

/-- One firing step of `check_reminders` for the reminder `r1` currently
at index `i` (with any elapsed snooze already cleared in both `r1` and
`a`): if due, speak, then either re-arm (+86400, recurring) or archive
as `triggered` and remove the element at `i`.  Returns the new active
list, archive, spoken tasks, and `triggered_any` flag. -/
def dueStep (now : Int) (a : List Reminder) (arch : List ArchiveEntry)
    (sp : List (List Char)) (tr : Bool) (r1 : Reminder) (i : Nat) :
    List Reminder × List ArchiveEntry × List (List Char) × Bool :=
  if r1.time ≤ now then
    if r1.recurring then
      (a.set i { r1 with time := r1.time + 86400 }, arch, sp ++ [r1.task], true)
    else
      (a.eraseIdx i, arch ++ [mkArchiveEntry r1 (cs "triggered") now], sp ++ [r1.task], true)
  else (a, arch, sp, tr)

/-- The `for reminder in data["active"]` loop of `check_reminders`.
CPython's list iterator holds a bare index that advances by one each
iteration and re-reads the (possibly mutated) list, which is exactly
what this function does: `i` is the iterator's index, and removal via
`eraseIdx` shifts later elements under it.  The snooze test mirrors
Python truthiness (`None` and `0` are falsy).  Fuel `a.length + 1` is
enough since `i` grows by one per step and the list never grows. -/
def checkGo (now : Int) : Nat → List Reminder → List ArchiveEntry →
    List (List Char) → Bool → Nat → List Reminder × List ArchiveEntry × List (List Char) × Bool
  | 0, a, arch, sp, tr, _ => (a, arch, sp, tr)
  | fuel + 1, a, arch, sp, tr, i =>
    match a[i]? with
    | none => (a, arch, sp, tr)
    | some r0 =>
      match r0.snoozedUntil with
      | some s =>
        if s ≠ 0 then
          if now < s then checkGo now fuel a arch sp tr (i + 1)
          else
            let r1 := { r0 with snoozedUntil := none }
            let q := dueStep now (a.set i r1) arch sp tr r1 i
            checkGo now fuel q.1 q.2.1 q.2.2.1 q.2.2.2 (i + 1)
        else
          let q := dueStep now a arch sp tr r0 i
          checkGo now fuel q.1 q.2.1 q.2.2.1 q.2.2.2 (i + 1)
      | none =>
        let q := dueStep now a arch sp tr r0 i
        checkGo now fuel q.1 q.2.1 q.2.2.1 q.2.2.2 (i + 1)

/-- `check_reminders()` acting on the loaded ledger at time `now`:
returns the resulting ledger, the tasks spoken (the firing events), and
whether `save_reminders` was called (`triggered_any`). -/
def pyCheckReminders (now : Int) (L : Ledger) : Ledger × List (List Char) × Bool :=
  let q := checkGo now (L.active.length + 1) L.active L.archive [] false 0
  (⟨q.1, q.2.1⟩, q.2.2.1, q.2.2.2)

/-- The `while reminder["time"] < now_ts: reminder["time"] += 86400` loop
of `recover_missed_reminders`. -/
def pyFastForward (now t : Int) : Int :=
  if t < now then pyFastForward now (t + 86400) else t
termination_by (now - t).toNat
decreasing_by omega

/-- The `for reminder in list(data["active"])` loop of
`recover_missed_reminders`.  The loop iterates a snapshot copy, and each
mutation (`archive_reminder` tags the dict before `remove` looks it up
by equality, so removal hits exactly the processed element's position;
the recurring branch mutates the element in place), so it processes each
original element once, independently, in order.  Returns the new active
list, the newly archived entries, the spoken tasks, and the `changed`
flag. -/
def recoverGo (now : Int) : List Reminder →
    List Reminder × List ArchiveEntry × List (List Char) × Bool
  | [] => ([], [], [], false)
  | r :: rest =>
    let p := recoverGo now rest
    if r.time < now then
      if r.recurring then
        ({ r with time := pyFastForward now r.time } :: p.1, p.2.1, r.task :: p.2.2.1, true)
      else
        (p.1, mkArchiveEntry r (cs "missed") now :: p.2.1, r.task :: p.2.2.1, true)
    else (r :: p.1, p.2.1, p.2.2.1, p.2.2.2)

/-- `recover_missed_reminders()` acting on the loaded ledger at time
`now`: the resulting ledger, the spoken missed-task notices, and whether
`save_reminders` was called (`changed`). -/
def pyRecoverMissed (now : Int) (L : Ledger) : Ledger × List (List Char) × Bool :=
  let p := recoverGo now L.active
  (⟨p.1, L.archive ++ p.2.1⟩, p.2.2.1, p.2.2.2)

-- ==========================================
-- Persistent store (load_reminders / save_reminders / load_memory)
-- ==========================================

/-- JSON values as produced by `json.load`.  In `jstr`/object keys the
payload is the character list; a well-formed `archived_at` date string
is represented by the minute-truncated timestamp it denotes (`jnum`),
per the strftime/strptime interface model in the file header, and an
ill-formed or non-string `archived_at` by any other constructor. -/
inductive Json where
  | null
  | jbool (b : Bool)
  | jnum (n : Int)
  | jstr (s : List Char)
  | jarr (xs : List Json)
  | jobj (fields : List (List Char × Json))

/-- Dictionary lookup on a parsed JSON object. -/
def jlookup (kvs : List (List Char × Json)) (k : List Char) : Option Json :=
  match kvs with
  | [] => none
  | (k2, v) :: rest => if k2 == k then some v else jlookup rest k

/-- Python `data[k] = v` on a dict that already contains the key `k`:
replace the value in place, preserving insertion order. -/
def jsetKey (kvs : List (List Char × Json)) (k : List Char) (v : Json) :
    List (List Char × Json) :=
  kvs.map fun p => if p.1 == k then (p.1, v) else p

/-- JSON encoding of a reminder as written by `save_reminders`. -/
def encodeReminder (r : Reminder) : Json :=
  .jobj [(cs "id", .jstr r.id), (cs "task", .jstr r.task), (cs "time", .jnum r.time),
    (cs "recurring", .jbool r.recurring),
    (cs "snoozed_until", match r.snoozedUntil with
      | some t => .jnum t
      | none => .null)]

/-- JSON encoding of an archive entry as written by `save_reminders`. -/
def encodeArchiveEntry (e : ArchiveEntry) : Json :=
  .jobj [(cs "id", .jstr e.id), (cs "task", .jstr e.task), (cs "time", .jnum e.time),
    (cs "recurring", .jbool e.recurring),
    (cs "snoozed_until", match e.snoozedUntil with
      | some t => .jnum t
      | none => .null),
    (cs "status", .jstr e.status), (cs "archived_at", .jnum e.archivedAt)]

/-- JSON document written by `save_reminders` for a ledger. -/
def encodeLedger (L : Ledger) : Json :=
  .jobj [(cs "active", .jarr (L.active.map encodeReminder)),
    (cs "archive", .jarr (L.archive.map encodeArchiveEntry))]

/-- State of a JSON file as seen by a loader: absent, present but not
parseable as JSON, or parsed to a value. -/
inductive FileState where
  | missing
  | unparseable
  | parsed (j : Json)

/-- The default ledger document returned by `load_reminders` on any
failure. -/
def defaultLedgerJson : Json :=
  .jobj [(cs "active", .jarr []), (cs "archive", .jarr [])]

/-- The archive filter of `prune_archive`: each entry must be a dict
whose `archived_at` parses with `strptime` (otherwise `KeyError`,
`TypeError` or `ValueError` aborts the load, modelled as `none`);
entries at or after `now` minus the retention window are kept. -/
def pruneKeep (now : Int) : List Json → Option (List Json)
  | [] => some []
  | e :: rest =>
    match e with
    | .jobj kvs =>
      match jlookup kvs (cs "archived_at") with
      | some (.jnum t) =>
        (pruneKeep now rest).map fun ks =>
          if now - (ARCHIVE_RETENTION_DAYS : Int) * 86400 ≤ t then e :: ks else ks
      | _ => none
    | _ => none

/-- Body of `load_reminders` on a parsed document: legacy normalization
(`reminders` key) followed by `prune_archive`.  `none` is the exception
path caught by the bare `except`, which makes the loader fall back to
the default; a non-dict document or a non-list archive raises when the
pruning code indexes or iterates it. -/
def pyLoadBody (j : Json) (now : Int) : Option Json :=
  match j with
  | .jobj kvs =>
    let data := match jlookup kvs (cs "reminders") with
      | some v => [(cs "active", v), (cs "archive", Json.jarr [])]
      | none => kvs
    match jlookup data (cs "archive") with
    | some (.jarr entries) =>
      match pruneKeep now entries with
      | some kept => some (.jobj (jsetKey data (cs "archive") (.jarr kept)))
      | none => none
    | _ => none
  | _ => none

/-- `load_reminders()` on a file in state `fs` at time `now`. -/
def pyLoadReminders (fs : FileState) (now : Int) : Json :=
  match fs with
  | .missing => defaultLedgerJson
  | .unparseable => defaultLedgerJson
  | .parsed j => (pyLoadBody j now).getD defaultLedgerJson

/-- The fixed persona prompt of `load_memory` (its text is abridged
here; no claim depends on its contents, only on its shape). -/
def personaContent : List Char :=
  cs "NAME: Patch. IDENTITY: A physical robot project built by Natt in his bedroom."

/-- The default conversation memory returned by `load_memory` when the
file is missing or does not parse. -/
def defaultMemoryJson : Json :=
  .jarr [.jobj [(cs "role", .jstr (cs "system")), (cs "content", .jstr personaContent)]]

/-- `load_memory()`: returns whatever `json.load` produced, with no
schema validation; the default only covers a missing file or a parse
failure. -/
def pyLoadMemory (fs : FileState) : Json :=
  match fs with
  | .parsed j => j
  | _ => defaultMemoryJson

-- ==========================================
-- Intent router / session state machine (run_patch main loop)
-- ==========================================

/-- Interaction mode. -/
inductive Mode where
  | voice
  | chat
  deriving DecidableEq

/-- Session state: the `interaction_mode` and `is_sleeping` globals. -/
structure Sess where
  mode : Mode
  sleeping : Bool
  deriving DecidableEq

/-- The handlers a single turn of the main loop can execute, in the
order the loop reaches them. -/
inductive Act where
  | wake
  | drop
  | modeSwitch
  | exitTurn
  | cleanSystem
  | totalReset
  | resetMemoryA
  | goSleep
  | remAdd
  | remList
  | remDelete
  | wipeConfirmed
  | wipeCancelled
  | wipeActive
  | wipeArchive
  | wipeAllDirect
  | remSummary
  | weatherA
  | searchA
  | chatA
  deriving DecidableEq

/-- ASCII apostrophe, used inside some trigger phrases. -/
def apos : Char := Char.ofNat 39

/-- `add_triggers` of run_patch. -/
def addTriggers : List (List Char) :=
  [cs "log reminder", cs "schedule task", cs "set alarm", cs "remind me", cs "create reminder"]

/-- `list_triggers` of run_patch. -/
def listTriggers : List (List Char) :=
  [cs "reminder status", cs "what" ++ [apos] ++ cs "s on my agenda", cs "mission log",
    cs "list reminders", cs "show reminders", cs "what" ++ [apos] ++ cs "s on my schedule"]

/-- `delete_triggers` of run_patch. -/
def deleteTriggers : List (List Char) :=
  [cs "cancel reminder", cs "delete task", cs "abort mission", cs "remove reminder"]

/-- `summary_triggers` of run_patch. -/
def summaryTriggers : List (List Char) :=
  [cs "daily summary", cs "status report", cs "mission summary", cs "how did i do today",
    cs "today" ++ [apos] ++ cs "s summary"]

/-- `weather_triggers` of run_patch. -/
def weatherTriggers : List (List Char) :=
  [cs "weather scan", cs "environmental report", cs "atmospheric conditions",
    cs "weather in", cs "weather for"]

/-- `search_triggers` of run_patch. -/
def searchTriggers : List (List Char) :=
  [cs "search engine active", cs "searching enable", cs "search for", cs "look up",
    cs "open google"]

/-- `wipe_triggers` of run_patch: a dict iterated in insertion order.
The third entry's per-trigger branch is preempted by the dedicated
`wipe all reminders` check on every iteration. -/
def wipePairs : List (List Char × Act) :=
  [(cs "wipe active reminders", .wipeActive), (cs "wipe reminder archive", .wipeArchive),
    (cs "wipe all reminders", .wipeAllDirect)]

/-- First trigger of `ts` (in list order) occurring in `low`, mirroring
the `for ... if trigger in input: ...; break` idiom. -/
def findTrig (ts : List (List Char)) (low : List Char) : Option (List Char) :=
  match ts with
  | [] => none
  | t :: rest => if containsSub t low then some t else findTrig rest low

/-- `any(trigger in input for trigger in ts)`. -/
def anyTrig (ts : List (List Char)) (low : List Char) : Bool :=
  ts.any fun t => containsSub t low

/-- The `for trigger, mode in wipe_triggers.items()` block.  Each of the
three iterations first checks for `wipe all reminders` (prompting for
confirmation via a nested `input()`, modelled by `confirm`), then for
its own trigger; crucially each branch ends in `continue`, which binds
to this `for` loop, so after the block control always falls through to
the later trigger groups. -/
def wipeBlock (low confirm : List Char) : List Act :=
  (wipePairs.map fun p =>
    if containsSub (cs "wipe all reminders") low then
      if lowerL confirm == cs "confirm" then [Act.wipeConfirmed] else [Act.wipeCancelled]
    else if containsSub p.1 low then [p.2]
    else []).flatten

/-- Trigger groups from the wipe block onwards: wipe, then summary,
weather, search, finally the default chat branch.  The weather branch
consumes the turn only when both a trigger matched and the derived city
name is non-empty; the search branch augments the input and continues
into chat. -/
def tailDispatch (st : Sess) (low confirm : List Char) : Sess × List Act :=
  let ws := wipeBlock low confirm
  if anyTrig summaryTriggers low then (st, ws ++ [Act.remSummary])
  else
    let wt := findTrig weatherTriggers low
    let city : List Char :=
      match wt with
      | some t =>
        [cs "for", cs "in", cs "of", cs "at"].foldl
          (fun c w => pyStrip (replaceAll w [] c)) (pyStrip (afterLastSub t low))
      | none => []
    if wt.isSome && !city.isEmpty then (st, ws ++ [Act.weatherA])
    else
      let sq := searchTriggers.foldl
        (fun (acc : List Char × Bool) t =>
          if containsSub t acc.1 then (pyStrip (replaceAll t [] acc.1), true) else acc)
        (low, false)
      if sq.2 then (st, ws ++ [Act.searchA, Act.chatA]) else (st, ws ++ [Act.chatA])

/-- One turn of the `while True` loop of run_patch on a non-empty input:
the sleep gate, then the fixed trigger gauntlet in source order.
Returns the session state for the next turn and the handlers executed.
`confirm` is the answer a nested `input()` call would read (only the
wipe-all prompt uses it). -/
def runTurn (st : Sess) (input confirm : List Char) : Sess × List Act :=
  let low := lowerL input
  if st.sleeping then
    if containsSub (cs "patch wake up") low then ({ st with sleeping := false }, [Act.wake])
    else (st, [Act.drop])
  else if containsSub (cs "switch to") low then
    ({ st with mode := if containsSub (cs "chat") low then Mode.chat else Mode.voice },
      [Act.modeSwitch])
  else if anyTrig [cs "exit", cs "shut down", cs "power down"] low then (st, [Act.exitTurn])
  else if containsSub (cs "clean your system") low then (st, [Act.cleanSystem])
  else if containsSub (cs "total reset") low then (st, [Act.totalReset])
  else if anyTrig [cs "reset memory", cs "forget everything", cs "clear history"] low then
    (st, [Act.resetMemoryA])
  else if anyTrig [cs "temporarily sleep", cs "patch sleep", cs "pause system"] low then
    ({ st with sleeping := true }, [Act.goSleep])
  else
    match findTrig addTriggers low with
    | some _ => (st, [Act.remAdd])
    | none =>
      if anyTrig listTriggers low then (st, [Act.remList])
      else
        match findTrig deleteTriggers low with
        | some t =>
          if !(pyStrip (replaceAll t [] low)).isEmpty then (st, [Act.remDelete])
          else tailDispatch st low confirm
        | none => tailDispatch st low confirm

-- ==========================================
-- Shared helper lemmas and sample data
-- ==========================================

/-- The fast-forward loop of recover_missed_reminders runs until the
reminder time is at or past now. -/
theorem pyFastForward_ge (now t : Int) : now ≤ pyFastForward now t := by
  unfold pyFastForward
  split
  · exact pyFastForward_ge now (t + 86400)
  · omega
termination_by (now - t).toNat
decreasing_by omega

/-- Per-reminder effect claimed for recoverMissed, written from the
specification wording: an overdue non-recurring reminder is dropped from
the active list, an overdue recurring one is fast-forwarded, and
anything not overdue is untouched. -/
def recoverStep (now : Int) (r : Reminder) : Option Reminder :=
  if r.time < now then
    if r.recurring then some { r with time := pyFastForward now r.time } else none
  else some r

/-- Active list produced by the recover loop, as a filterMap. -/
theorem recoverGo_active (now : Int) (l : List Reminder) :
    (recoverGo now l).1 = l.filterMap (recoverStep now) := by
  induction l with
  | nil => rfl
  | cons r rest ih =>
    simp only [recoverGo, List.filterMap_cons, recoverStep]
    split
    · split
      · simp [ih]
      · simp [ih]
    · simp [ih]

/-- Newly archived entries produced by the recover loop. -/
theorem recoverGo_arch (now : Int) (l : List Reminder) :
    (recoverGo now l).2.1
      = (l.filter fun r => decide (r.time < now) && !r.recurring).map
          (fun r => mkArchiveEntry r (cs "missed") now) := by
  induction l with
  | nil => rfl
  | cons r rest ih =>
    simp only [recoverGo, List.filter_cons]
    by_cases h1 : r.time < now
    · by_cases h2 : r.recurring <;> simp [h1, h2, ih]
    · simp [h1, ih]

/-- Missed-task notices spoken by the recover loop. -/
theorem recoverGo_spoke (now : Int) (l : List Reminder) :
    (recoverGo now l).2.2.1
      = (l.filter fun r => decide (r.time < now)).map (fun r => r.task) := by
  induction l with
  | nil => rfl
  | cons r rest ih =>
    simp only [recoverGo, List.filter_cons]
    by_cases h1 : r.time < now
    · by_cases h2 : r.recurring <;> simp [h1, h2, ih]
    · simp [h1, ih]

/-- Changed flag of the recover loop. -/
theorem recoverGo_flag (now : Int) (l : List Reminder) :
    (recoverGo now l).2.2.2 = l.any fun r => decide (r.time < now) := by
  induction l with
  | nil => rfl
  | cons r rest ih =>
    simp only [recoverGo, List.any_cons]
    by_cases h1 : r.time < now
    · by_cases h2 : r.recurring <;> simp [h1, h2]
    · simp [h1, ih]

/-- Sample non-recurring reminder, due at time 50. -/
def remA : Reminder := ⟨cs "rem_001", cs "t1", 50, false, none⟩

/-- Sample non-recurring reminder, due at time 60. -/
def remB : Reminder := ⟨cs "rem_002", cs "t2", 60, false, none⟩

/-- Sample archive entry archived 5 days into the model time line. -/
def staleEntry : ArchiveEntry := ⟨cs "rem_001", cs "x", 0, false, none, cs "missed", 5 * 86400⟩

/-- An add as issued by the router with an input matching no time
pattern (the parse then always succeeds with the one-hour default), at
model time 0. -/
def addSimple (L : Ledger) (task : List Char) : Ledger :=
  match pyAddReminder L task [] false 0 0 with
  | .ok (_, L2, _) => L2
  | .error _ => L

/-- Ledger obtained from the empty ledger by a sequence of adds. -/
def foldAdds (tasks : List (List Char)) : Ledger := tasks.foldl addSimple ⟨[], []⟩

/-- Closed form of one default-time add. -/
theorem addSimple_eq (L : Ledger) (t : List Char) :
    addSimple L t = if MAX_REMINDERS ≤ L.active.length then L
      else ⟨L.active ++ [⟨remId (L.active.length + 1), t, 3600, false, none⟩], L.archive⟩ := by
  by_cases h : MAX_REMINDERS ≤ L.active.length
  · simp [addSimple, pyAddReminder, h]
  · simp [addSimple, pyAddReminder, h, show pyParseTime 0 0 [] = .ok 3600 from rfl]

/-- Invariant of add-only ledgers: bounded length and ids determined by
position. -/
def ledgerIdInv (L : Ledger) : Prop :=
  L.active.length ≤ MAX_REMINDERS
    ∧ L.active.map (fun r => r.id)
        = (List.range L.active.length).map (fun k => remId (k + 1))

/-- One add preserves the id invariant. -/
theorem addSimple_inv (L : Ledger) (t : List Char) (h : ledgerIdInv L) :
    ledgerIdInv (addSimple L t) := by
  obtain ⟨h1, h2⟩ := h
  rw [addSimple_eq]
  split
  · exact ⟨h1, h2⟩
  · rename_i hlt
    constructor
    · simp only [Ledger.mk.injEq, List.length_append, List.length_cons, List.length_nil]
      unfold MAX_REMINDERS at *
      omega
    · simp only [List.map_append, List.length_append, List.length_cons, List.length_nil,
        List.map_cons, List.map_nil, h2]
      rw [show L.active.length + (0 + 1) = L.active.length + 1 by omega, List.range_succ]
      simp

/-- Every add-only ledger satisfies the id invariant. -/
theorem foldAdds_inv (tasks : List (List Char)) : ledgerIdInv (foldAdds tasks) := by
  have base : ledgerIdInv ⟨[], []⟩ := ⟨by simp [MAX_REMINDERS], by simp⟩
  unfold foldAdds
  generalize hL : (⟨[], []⟩ : Ledger) = L at base
  clear hL
  induction tasks generalizing L with
  | nil => exact base
  | cons t ts ih => exact ih (addSimple L t) (addSimple_inv L t base)

/-- The id format is injective on the ordinals an active list can hold. -/
theorem remId_inj21 : ∀ x < 21, ∀ y < 21, remId x = remId y → x = y := by decide

/-- Pruning the encoded archive keeps exactly the entries inside the
retention window. -/
theorem pruneKeep_encoded (now : Int) (l : List ArchiveEntry) :
    pruneKeep now (l.map encodeArchiveEntry)
      = some ((l.filter fun e =>
          decide (now - (ARCHIVE_RETENTION_DAYS : Int) * 86400 ≤ e.archivedAt)).map
            encodeArchiveEntry) := by
  induction l with
  | nil => rfl
  | cons e rest ih =>
    have hlk : jlookup [(cs "id", Json.jstr e.id), (cs "task", Json.jstr e.task),
        (cs "time", Json.jnum e.time), (cs "recurring", Json.jbool e.recurring),
        (cs "snoozed_until", match e.snoozedUntil with
          | some t => Json.jnum t
          | none => Json.null),
        (cs "status", Json.jstr e.status), (cs "archived_at", Json.jnum e.archivedAt)]
        (cs "archived_at") = some (Json.jnum e.archivedAt) := rfl
    simp only [List.map_cons, pruneKeep, encodeArchiveEntry, hlk, ih, List.filter_cons,
      Option.map_some]
    by_cases h : now - (ARCHIVE_RETENTION_DAYS : Int) * 86400 ≤ e.archivedAt
    · simp [h, encodeArchiveEntry]
    · simp [h]

-- ==========================================
-- Claim theorems
-- ==========================================

/-- C1: the claim demands that check_reminders evaluate every active
reminder exactly once per call and fire every due one.  The code removes
fired non-recurring reminders from the list it is iterating, so the
CPython iterator index skips the next element: with two due
non-recurring reminders, only the first fires and is archived, while the
second is left in the active list, unevaluated and unfired, in that
call. -/
theorem check_reminders_skips_after_removal :
    pyCheckReminders 100 ⟨[remA, remB], []⟩
      = (⟨[remB], [mkArchiveEntry remA (cs "triggered") 100]⟩, [remA.task], true)
    ∧ remA.time ≤ 100 ∧ remB.time ≤ 100 ∧ remA.recurring = false
    ∧ remB.recurring = false := by
  decide

/-- C2: the claim says the first trigger group whose phrase occurs in
the input consumes the turn, with no later group evaluated.  In the wipe
block every branch ends in a continue that binds to the inner for loop,
so after executing the wipe handler the turn falls through: on the input
wipe active reminders the loop also runs the default chat branch.  The
second conjunct shows the delete group failing to consume the turn when
the trigger occurs with an empty remainder keyword. -/
theorem run_turn_wipe_falls_through :
    runTurn ⟨Mode.voice, false⟩ (cs "wipe active reminders") (cs "confirm")
      = (⟨Mode.voice, false⟩, [Act.wipeActive, Act.chatA])
    ∧ runTurn ⟨Mode.voice, false⟩ (cs "cancel reminder") (cs "confirm")
      = (⟨Mode.voice, false⟩, [Act.chatA]) := by
  decide

/-- C3 counterexample: the claim says every add on a ledger below
capacity appends one reminder and returns its id; on the below-capacity
empty ledger and the raw input at 99, the hour 99 matched by the clock
pattern makes datetime.replace raise, so add raises instead of appending
and returning. -/
theorem add_reminder_raises_below_capacity :
    pyAddReminder ⟨[], []⟩ (cs "call mom") (cs "at 99") false 0 0 = .error .valueErr
    ∧ (⟨[], []⟩ : Ledger).active.length < MAX_REMINDERS := by
  exact ⟨rfl, by decide⟩

/-- C3 (amended): at or above capacity, add returns the capacity-exceeded
result carrying the current active count, leaves the ledger unchanged
and does not persist; below capacity, whenever the time parse returns
normally, add appends exactly one reminder carrying the new id, persists,
and returns the new id together with the human-readable
(minute-truncated) fire time. -/
theorem add_reminder_capacity_amended (L : Ledger) (task input : List Char)
    (recurring : Bool) (now dayStart : Int) :
    (MAX_REMINDERS ≤ L.active.length →
      pyAddReminder L task input recurring now dayStart
        = .ok (.limitReached L.active.length, L, false))
    ∧ (∀ t : Int, L.active.length < MAX_REMINDERS →
        pyParseTime now dayStart input = .ok t →
        pyAddReminder L task input recurring now dayStart
          = .ok (.success (remId (L.active.length + 1)) (minuteTrunc t),
              ⟨L.active ++ [⟨remId (L.active.length + 1), task, t, recurring, none⟩],
                L.archive⟩, true)) := by
  constructor
  · intro h
    simp [pyAddReminder, h]
  · intro t h1 h2
    unfold pyAddReminder
    rw [if_neg (by omega), h2]

/-- C3 witness: the amended theorem applied to a ledger of twenty
reminders and to the empty ledger with the default one-hour parse. -/
theorem add_reminder_capacity_amended_witness :
    pyAddReminder ⟨List.replicate 20 remA, []⟩ (cs "x") [] false 0 0
      = .ok (.limitReached 20, ⟨List.replicate 20 remA, []⟩, false)
    ∧ pyAddReminder ⟨[], []⟩ (cs "x") [] false 0 0
      = .ok (.success (remId 1) (minuteTrunc 3600),
          ⟨[⟨remId 1, cs "x", 3600, false, none⟩], []⟩, true) := by
  constructor
  · have h := (add_reminder_capacity_amended ⟨List.replicate 20 remA, []⟩ (cs "x") [] false 0 0).1
      (by decide)
    simpa using h
  · have h := (add_reminder_capacity_amended ⟨[], []⟩ (cs "x") [] false 0 0).2 3600
      (by decide) rfl
    simpa using h

/-- C4: recoverMissed archives every overdue non-recurring reminder with
status missed and removes it from the active list, fast-forwards every
overdue recurring reminder by whole days until its time is at or past
now while keeping it active, leaves reminders with time at or past now
untouched, speaks one notice per missed reminder, and persists exactly
when some reminder was overdue. -/
theorem recover_missed_reminders_spec (now : Int) (active : List Reminder)
    (archive : List ArchiveEntry) :
    (pyRecoverMissed now ⟨active, archive⟩).1.active = active.filterMap (recoverStep now)
    ∧ (pyRecoverMissed now ⟨active, archive⟩).1.archive
        = archive ++ (active.filter fun r => decide (r.time < now) && !r.recurring).map
            (fun r => mkArchiveEntry r (cs "missed") now)
    ∧ (pyRecoverMissed now ⟨active, archive⟩).2.1
        = (active.filter fun r => decide (r.time < now)).map (fun r => r.task)
    ∧ ((pyRecoverMissed now ⟨active, archive⟩).1.active.all fun r => decide (now ≤ r.time))
    ∧ (pyRecoverMissed now ⟨active, archive⟩).2.2
        = active.any fun r => decide (r.time < now) := by
  refine ⟨recoverGo_active now active, ?_, recoverGo_spoke now active, ?_,
    recoverGo_flag now active⟩
  · simp [pyRecoverMissed, recoverGo_arch now active]
  · rw [show (pyRecoverMissed now ⟨active, archive⟩).1.active = (recoverGo now active).1
      from rfl, recoverGo_active now active]
    rw [List.all_eq_true]
    intro r hr
    rw [List.mem_filterMap] at hr
    obtain ⟨a, _, ha⟩ := hr
    unfold recoverStep at ha
    split at ha
    · split at ha
      · cases ha
        simpa using pyFastForward_ge now a.time
      · cases ha
    · cases ha
      simp only [decide_eq_true_eq]
      omega

/-- C5 counterexample: the claim says the mode toggle works in every
session state including sleeping; while sleeping, an input containing
the mode-switch phrase (and no wake phrase) is discarded and neither the
mode nor anything else changes. -/
theorem mode_switch_ignored_while_sleeping :
    runTurn ⟨Mode.voice, true⟩ (cs "switch to chat") (cs "x")
      = (⟨Mode.voice, true⟩, [Act.drop]) := by
  decide

/-- C5 (amended): the mode toggle works only while awake, where an input
containing the switch phrase sets the mode (chat when the input mentions
chat, voice otherwise) and changes nothing else; while sleeping, any
input without the wake phrase is discarded with no state change. -/
theorem mode_switch_awake_amended (st : Sess) (input confirm : List Char) :
    (st.sleeping = false → containsSub (cs "switch to") (lowerL input) = true →
      runTurn st input confirm
        = (⟨if containsSub (cs "chat") (lowerL input) then Mode.chat else Mode.voice, false⟩,
            [Act.modeSwitch]))
    ∧ (st.sleeping = true → containsSub (cs "patch wake up") (lowerL input) = false →
      runTurn st input confirm = (st, [Act.drop])) := by
  obtain ⟨m, sl⟩ := st
  constructor
  · intro h1 h2
    subst h1
    simp [runTurn, h2]
  · intro h1 h2
    subst h1
    simp [runTurn, h2]

/-- C5 witness: the amended theorem applied awake on switch to chat and
asleep on switch to voice. -/
theorem mode_switch_awake_amended_witness :
    runTurn ⟨Mode.voice, false⟩ (cs "switch to chat") (cs "x")
      = (⟨Mode.chat, false⟩, [Act.modeSwitch])
    ∧ runTurn ⟨Mode.chat, true⟩ (cs "switch to voice") (cs "x")
      = (⟨Mode.chat, true⟩, [Act.drop]) := by
  constructor
  · exact ((mode_switch_awake_amended ⟨Mode.voice, false⟩ (cs "switch to chat") (cs "x")).1
      rfl (by decide)).trans (by decide)
  · exact (mode_switch_awake_amended ⟨Mode.chat, true⟩ (cs "switch to voice") (cs "x")).2
      rfl (by decide)

/-- C6 counterexample: the claim says no two distinct simultaneously
active reminders share an id and an id is never reassigned; after add,
add, delete of the first, add, the ledger holds two distinct reminders
both carrying rem_002. -/
theorem reminder_id_reused_after_delete :
    ((pyDeleteReminder (addSimple (addSimple ⟨[], []⟩ (cs "xx")) (cs "yy")) (cs "xx")).1
        |> (fun L3 => addSimple L3 (cs "zz"))
        |> (fun L4 => L4.active.map (fun r => r.id) = [cs "rem_002", cs "rem_002"]
              ∧ L4.active.map (fun r => r.task) = [cs "yy", cs "zz"])) := by
  constructor
  · rfl
  · rfl

/-- C6 (amended): ids are assigned as rem_ followed by the zero-padded
successor of the current active length; in any ledger built from the
empty ledger by adds alone the ids are position-determined and pairwise
distinct, but after a deletion an ordinal can recur, so an id can be
reassigned to a different reminder (see the counterexample). -/
theorem reminder_ids_positional_without_deletes (tasks : List (List Char)) :
    (foldAdds tasks).active.length ≤ MAX_REMINDERS
    ∧ (foldAdds tasks).active.map (fun r => r.id)
        = (List.range (foldAdds tasks).active.length).map (fun k => remId (k + 1))
    ∧ ((foldAdds tasks).active.map (fun r => r.id)).Pairwise (· ≠ ·) := by
  obtain ⟨h1, h2⟩ := foldAdds_inv tasks
  refine ⟨h1, h2, ?_⟩
  rw [h2, List.pairwise_map]
  refine (List.pairwise_lt_range _).imp_of_mem ?_
  intro a b ha hb hab
  rw [List.mem_range] at ha hb
  intro heq
  have := remId_inj21 (a + 1) (by unfold MAX_REMINDERS at h1; omega)
    (b + 1) (by unfold MAX_REMINDERS at h1; omega) heq
  omega

/-- C7 counterexample: the claim says save then load yields a
structurally equal ledger for every ledger; loading the saved document
of a ledger whose only archive entry is older than the retention window
returns the pruned document, which differs from the saved one. -/
theorem load_after_save_prunes_stale_archive :
    pyLoadReminders (.parsed (encodeLedger ⟨[], [staleEntry]⟩)) (20 * 86400)
      = encodeLedger ⟨[], []⟩
    ∧ encodeLedger ⟨[], []⟩ ≠ encodeLedger ⟨[], [staleEntry]⟩ := by
  constructor
  · rfl
  · simp [encodeLedger, encodeArchiveEntry, staleEntry]

/-- C7 (amended): loading the saved document of a ledger preserves the
active list exactly (ids, tasks, times, flags, snooze fields, in order)
and the archive up to pruning of entries older than the retention
window; a legacy document holding only a reminders key normalizes to an
active and an empty archive. -/
theorem save_load_roundtrip_amended (L : Ledger) (now : Int) (rs : Json) :
    pyLoadReminders (.parsed (encodeLedger L)) now
      = encodeLedger ⟨L.active, L.archive.filter fun e =>
          decide (now - (ARCHIVE_RETENTION_DAYS : Int) * 86400 ≤ e.archivedAt)⟩
    ∧ pyLoadReminders (.parsed (.jobj [(cs "reminders", rs)])) now
      = .jobj [(cs "active", rs), (cs "archive", .jarr [])] := by
  constructor
  · have h1 : jlookup [(cs "active", Json.jarr (L.active.map encodeReminder)),
        (cs "archive", Json.jarr (L.archive.map encodeArchiveEntry))] (cs "reminders")
        = none := rfl
    have h2 : jlookup [(cs "active", Json.jarr (L.active.map encodeReminder)),
        (cs "archive", Json.jarr (L.archive.map encodeArchiveEntry))] (cs "archive")
        = some (Json.jarr (L.archive.map encodeArchiveEntry)) := rfl
    simp only [pyLoadReminders, pyLoadBody, encodeLedger, h1, h2, pruneKeep_encoded,
      Option.getD_some]
    rfl
  · rfl

/-- C8 counterexample: the claim says a document that does not match the
expected schema makes the memory loader return the default; load_memory
returns any successfully parsed JSON unchanged, here the number 42. -/
theorem load_memory_keeps_nonschema_json :
    pyLoadMemory (.parsed (.jnum 42)) = .jnum 42
    ∧ Json.jnum 42 ≠ defaultMemoryJson := by
  exact ⟨rfl, by simp [defaultMemoryJson]⟩

/-- C8 (amended): both loaders return their default on a missing file
and on a parse failure, and the reminder loader also falls back to its
default when the normalization and pruning step hits data of the wrong
shape (for instance a non-object document); the memory loader, however,
performs no schema validation and returns any parsed JSON document
as-is. -/
theorem load_fallback_amended (now : Int) :
    pyLoadReminders .missing now = defaultLedgerJson
    ∧ pyLoadReminders .unparseable now = defaultLedgerJson
    ∧ pyLoadReminders (.parsed (.jnum 7)) now = defaultLedgerJson
    ∧ pyLoadMemory .missing = defaultMemoryJson
    ∧ pyLoadMemory .unparseable = defaultMemoryJson
    ∧ (∀ j : Json, pyLoadMemory (.parsed j) = j) := by
  exact ⟨rfl, rfl, rfl, rfl, rfl, fun j => rfl⟩

/-- C9: on the input remind me to water plants in 10 minutes at noon of
2024-01-01 (model timestamps: 1704110400 is 12:00:00 and 1704067200 is
midnight), the add trigger found is remind me, the extracted task is
water plants, and the created reminder carries that task and fire time
1704111000, the timestamp of 12:10:00. -/
theorem water_plants_scenario :
    findTrig addTriggers (lowerL (cs "remind me to water plants in 10 minutes"))
      = some (cs "remind me")
    ∧ extractTask (cs "remind me to water plants in 10 minutes") (cs "remind me")
      = cs "water plants"
    ∧ pyAddReminder ⟨[], []⟩
        (extractTask (cs "remind me to water plants in 10 minutes") (cs "remind me"))
        (cs "remind me to water plants in 10 minutes") false 1704110400 1704067200
      = .ok (.success (cs "rem_001") (minuteTrunc 1704111000),
          ⟨[⟨cs "rem_001", cs "water plants", 1704111000, false, none⟩], []⟩, true) := by
  exact ⟨rfl, rfl, rfl⟩

/-- C10: the claim says add is total on its string inputs; on the raw
input at 77 the clock pattern matches hour 77, datetime.replace raises
ValueError, and both the time parse and the whole add raise instead of
returning a result. -/
theorem add_reminder_at77_raises :
    pyParseTime 1704110400 1704067200 (cs "at 77") = .error .valueErr
    ∧ pyAddReminder ⟨[], []⟩ (cs "water plants") (cs "at 77") false 1704110400 1704067200
      = .error .valueErr := by
  exact ⟨rfl, rfl⟩
